import Mathlib

/-!
Verification of the RPi.GPIO compatibility layer of ArmbianIO
(src/python/RPi/GPIO.py), as a shallow embedding.

The module keeps four module-level variables: `_gpio_warnings`, `_mode`,
`_exports` (a dict mapping channels to directions) and `_events` (a dict
mapping channels to edge triggers).  The operations are translated here as
explicit state-passing functions returning both the call outcome (an
`Except` value, where distinct raise sites get distinct error constructors)
and the resulting state, since the Python code can mutate state before
raising.

The external armbianio board layer (AIOInit, AIOAddGPIO, AIOReadGPIO,
AIOWriteGPIO, AIOWriteGPIOEdge, callback registration, AIOShutdown) is not
part of the sources; it is modelled from the capability surface the spec
describes, as a small `Board` record.
-/

/-- Direction constants of the module: OUT = 0, IN = 1. -/
inductive Direction where
  | OUT
  | IN
deriving DecidableEq, Repr

/-- Edge trigger constants re-exported from the armbianio module:
RISING, FALLING, BOTH, NONE. -/
inductive Trigger where
  | RISING
  | FALLING
  | BOTH
  | NONE
deriving DecidableEq, Repr

/-- Modelled from the spec: the numeric values of the EDGE constants live in
the armbianio module, which is not among the sources here.  The spec states
that in the wait loop, for RISING and FALLING "the new level must equal the
target boolean", high for RISING and low for FALLING; this function is that
target boolean.  It is only consulted for RISING and FALLING: BOTH is
handled before the comparison and NONE is rejected by the assert. -/
def Trigger.target : Trigger → Bool
  | .RISING => true
  | .FALLING => false
  | .BOTH => true
  | .NONE => false

/-- Numbering scheme constant BOARD = 10. -/
def BOARD : Nat := 10

/-- Numbering scheme constant BCM = 11. -/
def BCM : Nat := 11

/-- Every distinct exception a call can raise.  RuntimeError sites are told
apart by their message; assert failures are AssertionError; using a list as
a dict key is TypeError; event polling raises NotImplementedError. -/
inductive GPIOError where
  | boardNotDetected
  | modeNotSet
  | alreadyConfigured
  | channelNotConfigured
  | wrongDirection
  | eventConflict
  | noEventRegistered
  | notImplementedError
  | assertionError
  | typeError
deriving DecidableEq, Repr

/-- Association-list dictionary lookup, mirroring `dict.get`. -/
def dget {α : Type} (l : List (Nat × α)) (k : Nat) : Option α :=
  match l with
  | [] => none
  | (k2, v) :: rest => if k2 = k then some v else dget rest k

/-- Association-list dictionary update, mirroring `d[k] = v`: replaces the
value in place when the key is present, appends otherwise (insertion-order
semantics of Python dicts). -/
def dinsert {α : Type} (l : List (Nat × α)) (k : Nat) (v : α) : List (Nat × α) :=
  match l with
  | [] => [(k, v)]
  | (k2, v2) :: rest => if k2 = k then (k2, v) :: rest else (k2, v2) :: dinsert rest k v

/-- Association-list dictionary deletion, mirroring `del d[k]`: removes the
first entry with the given key. -/
def derase {α : Type} (l : List (Nat × α)) (k : Nat) : List (Nat × α) :=
  match l with
  | [] => []
  | (k2, v2) :: rest => if k2 = k then rest else (k2, v2) :: derase rest k

/-- Association-list key listing, mirroring `list(d.keys())`. -/
def dkeys {α : Type} : List (Nat × α) → List Nat
  | [] => []
  | (k, _) :: rest => k :: dkeys rest

/-- Modelled from the spec: the external Board I/O Layer state.  `pins` holds
the level of every added GPIO, `edges` the armed edge flag per channel,
`callbacks` the channels whose callback registration is live together with
the trigger it was registered against, `active` whether the board session is
up (init establishes, shutdown releases). -/
structure Board where
  pins : List (Nat × Bool)
  edges : List (Nat × Trigger)
  callbacks : List (Nat × Trigger)
  active : Bool
deriving DecidableEq, Repr

/-- Modelled from the spec: add_pin with an explicit initial level. -/
def Board.addPin (b : Board) (channel : Nat) (lvl : Bool) : Board :=
  { b with pins := dinsert b.pins channel lvl }

/-- Modelled from the spec: remove_pin. -/
def Board.removePin (b : Board) (channel : Nat) : Board :=
  { b with pins := derase b.pins channel }

/-- Modelled from the spec: read_pin returns the current level. -/
def Board.readPin (b : Board) (channel : Nat) : Bool :=
  (dget b.pins channel).getD false

/-- Modelled from the spec: write_pin drives the level. -/
def Board.writePin (b : Board) (channel : Nat) (v : Bool) : Board :=
  { b with pins := dinsert b.pins channel v }

/-- Modelled from the spec: set_edge arms or disarms the edge flag. -/
def Board.setEdge (b : Board) (channel : Nat) (t : Trigger) : Board :=
  { b with edges := dinsert b.edges channel t }

/-- Modelled from the spec: register_callback. -/
def Board.registerCallback (b : Board) (channel : Nat) (t : Trigger) : Board :=
  { b with callbacks := dinsert b.callbacks channel t }

/-- Modelled from the spec: unregister_callback. -/
def Board.unregisterCallback (b : Board) (channel : Nat) : Board :=
  { b with callbacks := derase b.callbacks channel }

/-- Modelled from the spec: shutdown releases the board session. -/
def Board.shutdownBoard (b : Board) : Board :=
  { b with active := false }

/-- The four module-level variables plus the external board state. -/
structure GPIOState where
  gpio_warnings : Bool
  mode : Option Nat
  exports : List (Nat × Direction)
  events : List (Nat × Trigger)
  board : Board
deriving DecidableEq, Repr

/-- The state at import time: warnings on, no mode, empty registries. -/
def initialState : GPIOState :=
  { gpio_warnings := true
    mode := none
    exports := []
    events := []
    board := { pins := [], edges := [], callbacks := [], active := false } }

/-- A channel argument is either a single int or a list of ints. -/
inductive ChanArg where
  | single (c : Nat)
  | chanList (cs : List Nat)
deriving DecidableEq, Repr

/-- Embedding of `_check_configured(channel, direction)`: looks the channel
up in `_exports`, raising when missing, and when a direction is requested
raising when the configured direction differs. -/
def check_configured (channel : Nat) (direction : Option Direction)
    (st : GPIOState) : Except GPIOError Unit :=
  match dget st.exports channel, direction with
  | none, _ => .error .channelNotConfigured
  | some _, none => .ok ()
  | some configured, some d =>
    if d ≠ configured then .error .wrongDirection else .ok ()

/-- Embedding of `getmode()`. -/
def getmode (st : GPIOState) : Option Nat :=
  st.mode

/-- Embedding of `setmode(mode)`.  `initOk` stands for the outcome of the
external AIOInit call, which is only made while `_mode` is None; a failed
detection raises before the assert on the mode value. -/
def setmode (mode : Nat) (initOk : Bool) (st : GPIOState) :
    Except GPIOError Unit × GPIOState :=
  if st.mode = none then
    if initOk = false then (.error .boardNotDetected, st)
    else if mode = BCM ∨ mode = BOARD then
      (.ok (), { st with mode := some mode, board := { st.board with active := true } })
    else (.error .assertionError, st)
  else
    if mode = BCM ∨ mode = BOARD then (.ok (), { st with mode := some mode })
    else (.error .assertionError, st)

/-- Embedding of `setwarnings(enabled)`. -/
def setwarnings (enabled : Bool) (st : GPIOState) : GPIOState :=
  { st with gpio_warnings := enabled }

/-- Embedding of the single-channel path of `setup`, which is also what each
recursive call `setup(ch, direction, initial)` made from the list branch
executes: mode check, already-configured check, AIOAddGPIO, and the final
`_exports[channel] = direction` assignment of line 101. -/
def setupSingle (channel : Nat) (direction : Direction) (initial : Option Bool)
    (st : GPIOState) : Except GPIOError Unit × GPIOState :=
  if st.mode = none then (.error .modeNotSet, st)
  else if (dget st.exports channel).isSome then (.error .alreadyConfigured, st)
  else if direction = .OUT ∧ initial.isSome then
    (.ok (), { st with board := st.board.addPin channel (initial.getD false),
                       exports := dinsert st.exports channel direction })
  else
    (.ok (), { st with board := st.board.addPin channel false,
                       exports := dinsert st.exports channel direction })

/-- The `for ch in channel: setup(ch, direction, initial)` loop of the list
branch of `setup`; an exception from a recursive call propagates at once. -/
def setupList (channels : List Nat) (direction : Direction) (initial : Option Bool)
    (st : GPIOState) : Except GPIOError Unit × GPIOState :=
  match channels with
  | [] => (.ok (), st)
  | c :: rest =>
    match setupSingle c direction initial st with
    | (.error e, st2) => (.error e, st2)
    | (.ok _, st2) => setupList rest direction initial st2

/-- Embedding of `setup(channel, direction, initial, pull_up_down)`.  The
pull_up_down argument only triggers a warning and is not modelled further.
Note that the assignment `_exports[channel] = direction` on line 101 is
indented at function level, outside the `else` branch: after the list branch
finishes its loop, the list itself is used as a dict key, which raises
TypeError (unhashable type). -/
def setup (channel : ChanArg) (direction : Direction) (initial : Option Bool)
    (st : GPIOState) : Except GPIOError Unit × GPIOState :=
  if st.mode = none then (.error .modeNotSet, st)
  else
    match channel with
    | .single c => setupSingle c direction initial st
    | .chanList cs =>
      match setupList cs direction initial st with
      | (.error e, st2) => (.error e, st2)
      | (.ok _, st2) => (.error .typeError, st2)

/-- Embedding of `input(channel)`: only the existence of a configuration
entry is checked (any direction may be read), then AIOReadGPIO. -/
def input (channel : Nat) (st : GPIOState) : Except GPIOError Bool × GPIOState :=
  match check_configured channel none st with
  | .error e => (.error e, st)
  | .ok _ => (.ok (st.board.readPin channel), st)

/-- Embedding of the single-channel path of `output`. -/
def outputSingle (channel : Nat) (state : Bool) (st : GPIOState) :
    Except GPIOError Unit × GPIOState :=
  match check_configured channel (some .OUT) st with
  | .error e => (.error e, st)
  | .ok _ => (.ok (), { st with board := st.board.writePin channel state })

/-- The `for ch in channel: output(ch, state)` loop of the list branch. -/
def outputList (channels : List Nat) (state : Bool) (st : GPIOState) :
    Except GPIOError Unit × GPIOState :=
  match channels with
  | [] => (.ok (), st)
  | c :: rest =>
    match outputSingle c state st with
    | (.error e, st2) => (.error e, st2)
    | (.ok _, st2) => outputList rest state st2

/-- Embedding of `output(channel, state)`. -/
def output (channel : ChanArg) (state : Bool) (st : GPIOState) :
    Except GPIOError Unit × GPIOState :=
  match channel with
  | .single c => outputSingle c state st
  | .chanList cs => outputList cs state st

/-- The mutable locals of the polling loop of `wait_for_edge`:
`originalValue` is the baseline sample, `valueExit` and `timeoutExit` the
two exit flags. -/
structure LoopSt where
  originalValue : Bool
  valueExit : Bool
  timeoutExit : Bool
deriving DecidableEq, Repr

/-- One iteration of the body of the `while` loop of `wait_for_edge`:
re-sample the pin (`value`), and when it differs from the baseline either
exit (trigger BOTH), or set `valueExit` exactly when the new level equals
the trigger target and advance the baseline to the new level; then, when a
positive timeout was given, refresh `timeoutExit` from the elapsed time. -/
def loopStep (trigger : Trigger) (timeout : Int) (s : LoopSt)
    (value : Bool) (elapsed : Int) : LoopSt :=
  let s1 :=
    if value ≠ s.originalValue then
      if trigger = .BOTH then { s with valueExit := true }
      else { s with valueExit := (value = trigger.target), originalValue := value }
    else s
  if timeout > 0 then { s1 with timeoutExit := decide (elapsed > timeout) } else s1

/-- The `while not valueExit and not timeoutExit` loop, driven by a finite
trace of external observations: each iteration consumes one pair of the
AIOReadGPIO sample and the elapsed time at that iteration.  `none` means
the trace ran out before the loop exited (the call has not returned yet). -/
def runLoop (trigger : Trigger) (timeout : Int) (s : LoopSt)
    (steps : List (Bool × Int)) : Option LoopSt :=
  if s.valueExit = true ∨ s.timeoutExit = true then some s
  else
    match steps with
    | [] => none
    | (v, e) :: rest => runLoop trigger timeout (loopStep trigger timeout s v e) rest

/-- Embedding of `wait_for_edge(channel, trigger, timeout)`.  `initRead` is
the priming AIOReadGPIO sample and `steps` the trace of samples and elapsed
times seen by the loop iterations.  The result is `none` when the provided
trace is too short for the loop to exit (the Python call would still be
blocked); otherwise the outcome and the final state. -/
def wait_for_edge (channel : Nat) (trigger : Trigger) (timeout : Int)
    (initRead : Bool) (steps : List (Bool × Int)) (st : GPIOState) :
    Option (Except GPIOError Nat × GPIOState) :=
  match check_configured channel (some .IN) st with
  | .error e => some (.error e, st)
  | .ok _ =>
    if trigger = .NONE then some (.error .assertionError, st)
    else if (dget st.events channel).isSome then some (.error .eventConflict, st)
    else
      let st1 := { st with board := st.board.setEdge channel trigger }
      match runLoop trigger timeout ⟨initRead, false, false⟩ steps with
      | none => none
      | some _ =>
        some (.ok channel, { st1 with board := st1.board.setEdge channel .NONE })

/-- Embedding of `add_event_detect(channel, trigger, callback, bouncetime)`.
`callback` records whether a callback argument was supplied; `bouncetime`
only triggers a warning and is not modelled further. -/
def add_event_detect (channel : Nat) (trigger : Trigger) (callback : Bool)
    (st : GPIOState) : Except GPIOError Unit × GPIOState :=
  match check_configured channel (some .IN) st with
  | .error e => (.error e, st)
  | .ok _ =>
    if trigger = .NONE then (.error .assertionError, st)
    else if (dget st.events channel).isSome then (.error .eventConflict, st)
    else
      let st1 := { st with events := dinsert st.events channel trigger }
      if callback then
        (.ok (), { st1 with board := st1.board.registerCallback channel trigger })
      else (.ok (), st1)

/-- Embedding of `remove_event_detect(channel)`. -/
def remove_event_detect (channel : Nat) (st : GPIOState) :
    Except GPIOError Unit × GPIOState :=
  match check_configured channel (some .IN) st with
  | .error e => (.error e, st)
  | .ok _ =>
    if (dget st.events channel).isSome then
      (.ok (), { st with events := derase st.events channel,
                         board := st.board.unregisterCallback channel })
    else (.error .noEventRegistered, st)

/-- Embedding of `add_event_callback(channel, callback, bouncetime)`: the
callback is registered against the trigger already recorded in `_events`. -/
def add_event_callback (channel : Nat) (st : GPIOState) :
    Except GPIOError Unit × GPIOState :=
  match check_configured channel (some .IN) st with
  | .error e => (.error e, st)
  | .ok _ =>
    match dget st.events channel with
    | some tr => (.ok (), { st with board := st.board.registerCallback channel tr })
    | none => (.error .noEventRegistered, st)

/-- Embedding of `event_detected(channel)`: after the configuration check it
unconditionally raises NotImplementedError. -/
def event_detected (channel : Nat) (st : GPIOState) :
    Except GPIOError Bool × GPIOState :=
  match check_configured channel (some .IN) st with
  | .error e => (.error e, st)
  | .ok _ => (.error .notImplementedError, st)

/-- Embedding of the single-channel path of `cleanup`: configuration check,
then the event entry and its callback are removed when present, then the
pin resource and the configuration entry. -/
def cleanupSingle (channel : Nat) (st : GPIOState) :
    Except GPIOError Unit × GPIOState :=
  match check_configured channel none st with
  | .error e => (.error e, st)
  | .ok _ =>
    if (dget st.events channel).isSome then
      (.ok (), { st with events := derase st.events channel,
                         exports := derase st.exports channel,
                         board := (st.board.unregisterCallback channel).removePin channel })
    else
      (.ok (), { st with exports := derase st.exports channel,
                         board := st.board.removePin channel })

/-- The `for ch in channel: cleanup(ch)` loop of the list branch; an
exception from a per-element call propagates at once. -/
def cleanupList (channels : List Nat) (st : GPIOState) :
    Except GPIOError Unit × GPIOState :=
  match channels with
  | [] => (.ok (), st)
  | c :: rest =>
    match cleanupSingle c st with
    | (.error e, st2) => (.error e, st2)
    | (.ok _, st2) => cleanupList rest st2

/-- The no-argument branch of `cleanup`: clean every configured channel,
re-enable warnings, reset the mode, shut the board session down. -/
def cleanupAll (st : GPIOState) : Except GPIOError Unit × GPIOState :=
  match cleanupList (dkeys st.exports) st with
  | (.error e, st2) => (.error e, st2)
  | (.ok _, st2) =>
    (.ok (), { st2 with gpio_warnings := true, mode := none,
                        board := st2.board.shutdownBoard })

/-- Embedding of `cleanup(channel=None)`. -/
def cleanup (channel : Option ChanArg) (st : GPIOState) :
    Except GPIOError Unit × GPIOState :=
  match channel with
  | none => cleanupAll st
  | some (.single c) => cleanupSingle c st
  | some (.chanList cs) => cleanupList cs st

/-- The registry invariant of the claims: an event entry may exist only for
a channel holding an IN configuration entry, and event keys are unique. -/
def EvInv (st : GPIOState) : Prop :=
  (∀ c t, dget st.events c = some t → dget st.exports c = some Direction.IN) ∧
    (dkeys st.events).Nodup

/-- The states reachable from the import-time state through the public
operations.  External inputs (the board detection outcome, the sample and
time trace of the wait loop) are quantified; the state after a call is
reachable whether the call succeeded or raised, since the Python functions
can mutate the registries before raising. -/
inductive Reachable : GPIOState → Prop where
  | init : Reachable initialState
  | step_setmode (st : GPIOState) (m : Nat) (ok : Bool) :
      Reachable st → Reachable (setmode m ok st).2
  | step_setwarnings (st : GPIOState) (e : Bool) :
      Reachable st → Reachable (setwarnings e st)
  | step_setup (st : GPIOState) (ch : ChanArg) (d : Direction) (i : Option Bool) :
      Reachable st → Reachable (setup ch d i st).2
  | step_input (st : GPIOState) (c : Nat) :
      Reachable st → Reachable (input c st).2
  | step_output (st : GPIOState) (ch : ChanArg) (v : Bool) :
      Reachable st → Reachable (output ch v st).2
  | step_wait (st : GPIOState) (c : Nat) (t : Trigger) (tmo : Int) (i : Bool)
      (steps : List (Bool × Int)) (res : Except GPIOError Nat × GPIOState) :
      Reachable st → wait_for_edge c t tmo i steps st = some res → Reachable res.2
  | step_add_event_detect (st : GPIOState) (c : Nat) (t : Trigger) (cb : Bool) :
      Reachable st → Reachable (add_event_detect c t cb st).2
  | step_remove_event_detect (st : GPIOState) (c : Nat) :
      Reachable st → Reachable (remove_event_detect c st).2
  | step_add_event_callback (st : GPIOState) (c : Nat) :
      Reachable st → Reachable (add_event_callback c st).2
  | step_event_detected (st : GPIOState) (c : Nat) :
      Reachable st → Reachable (event_detected c st).2
  | step_cleanup (st : GPIOState) (ch : Option ChanArg) :
      Reachable st → Reachable (cleanup ch st).2

/-- A session state with the mode set, as left by a successful setmode. -/
def sessionSt : GPIOState := (setmode BCM true initialState).2

/-- A session state with channel 1 configured as IN. -/
def stIN : GPIOState :=
  { gpio_warnings := true
    mode := some BCM
    exports := [(1, Direction.IN)]
    events := []
    board := { pins := [], edges := [], callbacks := [], active := true } }

/-- The state stIN after a completed wait on channel 1: the only board
change is the edge flag of channel 1, armed and then reset to NONE. -/
def stINafter : GPIOState :=
  { stIN with board := { stIN.board with edges := [(1, Trigger.NONE)] } }

/-- A session state with channel 2 configured as OUT. -/
def stOUT2 : GPIOState :=
  { gpio_warnings := true
    mode := some BCM
    exports := [(2, Direction.OUT)]
    events := []
    board := { pins := [], edges := [], callbacks := [], active := true } }

/-- The state after setup(1, IN) in a fresh session. -/
def st6a : GPIOState := (setup (ChanArg.single 1) Direction.IN none sessionSt).2

/-- The state after setup(1, IN) and add_event_detect(1, RISING). -/
def st6b : GPIOState := (add_event_detect 1 Trigger.RISING false st6a).2

theorem dget_dinsert_self {α : Type} (l : List (Nat × α)) (k : Nat) (v : α) :
    dget (dinsert l k v) k = some v := by
  induction l with
  | nil => simp [dinsert, dget]
  | cons hd tl ih =>
    obtain ⟨k2, v2⟩ := hd
    by_cases h : k2 = k
    · subst h
      simp [dinsert, dget]
    · simp only [dinsert, if_neg h, dget]
      exact ih

theorem dget_dinsert_ne {α : Type} (l : List (Nat × α)) (k k2 : Nat) (v : α)
    (h : k2 ≠ k) : dget (dinsert l k v) k2 = dget l k2 := by
  induction l with
  | nil =>
    have h2 : ¬(k = k2) := fun he => h he.symm
    simp [dinsert, dget, h2]
  | cons hd tl ih =>
    obtain ⟨k3, v3⟩ := hd
    by_cases h3 : k3 = k
    · subst h3
      have h2 : ¬(k3 = k2) := fun he => h he.symm
      simp [dinsert, dget, h2]
    · simp only [dinsert, if_neg h3, dget]
      by_cases h32 : k3 = k2
      · rw [if_pos h32, if_pos h32]
      · rw [if_neg h32, if_neg h32]
        exact ih

theorem dget_derase_ne {α : Type} (l : List (Nat × α)) (k k2 : Nat)
    (h : k2 ≠ k) : dget (derase l k) k2 = dget l k2 := by
  induction l with
  | nil => simp [derase]
  | cons hd tl ih =>
    obtain ⟨k3, v3⟩ := hd
    by_cases h3 : k3 = k
    · subst h3
      have h2 : ¬(k3 = k2) := fun he => h he.symm
      simp [derase, dget, h2]
    · simp only [derase, if_neg h3, dget]
      by_cases h32 : k3 = k2
      · rw [if_pos h32, if_pos h32]
      · rw [if_neg h32, if_neg h32]
        exact ih

theorem dget_eq_none_iff {α : Type} (l : List (Nat × α)) (k : Nat) :
    dget l k = none ↔ k ∉ dkeys l := by
  induction l with
  | nil => simp [dget, dkeys]
  | cons hd tl ih =>
    obtain ⟨k2, v2⟩ := hd
    simp only [dget, dkeys, List.mem_cons]
    by_cases h : k2 = k
    · rw [if_pos h]
      subst h
      simp
    · rw [if_neg h, ih]
      simp only [not_or]
      constructor
      · intro hn
        exact ⟨fun he => h he.symm, hn⟩
      · intro hn
        exact hn.2

theorem mem_dkeys_dinsert {α : Type} (l : List (Nat × α)) (k k2 : Nat) (v : α) :
    k2 ∈ dkeys (dinsert l k v) ↔ k2 ∈ dkeys l ∨ k2 = k := by
  induction l with
  | nil => simp [dinsert, dkeys]
  | cons hd tl ih =>
    obtain ⟨k3, v3⟩ := hd
    by_cases h3 : k3 = k
    · subst h3
      simp only [dinsert, if_pos rfl, dkeys, List.mem_cons]
      tauto
    · simp only [dinsert, if_neg h3, dkeys, List.mem_cons, ih]
      tauto

theorem dkeys_derase_sublist {α : Type} (l : List (Nat × α)) (k : Nat) :
    List.Sublist (dkeys (derase l k)) (dkeys l) := by
  induction l with
  | nil => simp [derase, dkeys]
  | cons hd tl ih =>
    obtain ⟨k2, v2⟩ := hd
    by_cases h : k2 = k
    · simp only [derase, if_pos h, dkeys]
      exact List.sublist_cons_self k2 (dkeys tl)
    · simp only [derase, if_neg h, dkeys]
      exact List.Sublist.cons₂ k2 ih

theorem nodup_dkeys_derase {α : Type} (l : List (Nat × α)) (k : Nat)
    (h : (dkeys l).Nodup) : (dkeys (derase l k)).Nodup :=
  List.Nodup.sublist (dkeys_derase_sublist l k) h

theorem dget_derase_self {α : Type} (l : List (Nat × α)) (k : Nat)
    (hn : (dkeys l).Nodup) : dget (derase l k) k = none := by
  induction l with
  | nil => simp [derase, dget]
  | cons hd tl ih =>
    obtain ⟨k2, v2⟩ := hd
    simp only [dkeys, List.nodup_cons] at hn
    by_cases h : k2 = k
    · subst h
      simp only [derase, if_pos rfl]
      exact (dget_eq_none_iff tl k2).2 hn.1
    · simp only [derase, if_neg h, dget]
      exact ih hn.2

theorem nodup_dkeys_dinsert {α : Type} (l : List (Nat × α)) (k : Nat) (v : α)
    (hn : (dkeys l).Nodup) : (dkeys (dinsert l k v)).Nodup := by
  induction l with
  | nil => simp [dinsert, dkeys]
  | cons hd tl ih =>
    obtain ⟨k2, v2⟩ := hd
    simp only [dkeys, List.nodup_cons] at hn
    by_cases h : k2 = k
    · subst h
      simp only [dinsert, if_pos rfl, dkeys, List.nodup_cons]
      exact ⟨hn.1, hn.2⟩
    · simp only [dinsert, if_neg h, dkeys, List.nodup_cons]
      constructor
      · intro hmem
        rcases (mem_dkeys_dinsert tl k k2 v).1 hmem with hm | he
        · exact hn.1 hm
        · exact h he
      · exact ih hn.2

theorem derase_dinsert_of_none {α : Type} (l : List (Nat × α)) (k : Nat) (v : α)
    (h : dget l k = none) : derase (dinsert l k v) k = l := by
  induction l with
  | nil => simp [dinsert, derase]
  | cons hd tl ih =>
    obtain ⟨k2, v2⟩ := hd
    by_cases h2 : k2 = k
    · subst h2
      simp [dget] at h
    · simp only [dget] at h
      rw [if_neg h2] at h
      simp only [dinsert, if_neg h2, derase]
      rw [ih h]

theorem evInv_of_eq (st st2 : GPIOState) (hx : st2.exports = st.exports)
    (hv : st2.events = st.events) (h : EvInv st) : EvInv st2 := by
  constructor
  · rw [hv, hx]
    exact h.1
  · rw [hv]
    exact h.2

theorem check_ok_some (c : Nat) (d : Direction) (st : GPIOState)
    (h : check_configured c (some d) st = .ok ()) :
    dget st.exports c = some d := by
  unfold check_configured at h
  split at h
  · exact absurd h (by simp)
  · rename_i hget hdir
    exact absurd hdir (by simp)
  · rename_i cfg d2 hget hdir
    injection hdir with hdd
    subst hdd
    by_cases hd : d ≠ cfg
    · rw [if_pos hd] at h
      exact absurd h (by simp)
    · push_neg at hd
      rw [hget, hd]

theorem check_ok_exists (c : Nat) (st : GPIOState)
    (h : check_configured c none st = .ok ()) :
    (dget st.exports c).isSome := by
  unfold check_configured at h
  split at h
  · exact absurd h (by simp)
  · rename_i cfg hget hdir
    rw [hget]
    rfl
  · rename_i cfg d2 hget hdir
    exact absurd hdir (by simp)

theorem check_some_ok (c : Nat) (d cfg : Direction) (st : GPIOState)
    (hget : dget st.exports c = some cfg) (hd : d = cfg) :
    check_configured c (some d) st = .ok () := by
  unfold check_configured
  rw [hget]
  subst hd
  simp

theorem check_none_ok (c : Nat) (cfg : Direction) (st : GPIOState)
    (hget : dget st.exports c = some cfg) :
    check_configured c none st = .ok () := by
  unfold check_configured
  rw [hget]

theorem input_state_eq (c : Nat) (st : GPIOState) : (input c st).2 = st := by
  unfold input
  split <;> rfl

theorem event_detected_state_eq (c : Nat) (st : GPIOState) :
    (event_detected c st).2 = st := by
  unfold event_detected
  split <;> rfl

theorem setmode_frame (m : Nat) (ok : Bool) (st : GPIOState) :
    (setmode m ok st).2.exports = st.exports ∧ (setmode m ok st).2.events = st.events := by
  unfold setmode
  split_ifs <;> exact ⟨rfl, rfl⟩

theorem outputSingle_frame (c : Nat) (v : Bool) (st : GPIOState) :
    (outputSingle c v st).2.exports = st.exports ∧
      (outputSingle c v st).2.events = st.events := by
  unfold outputSingle
  split <;> exact ⟨rfl, rfl⟩

theorem outputList_frame (cs : List Nat) (v : Bool) (st : GPIOState) :
    (outputList cs v st).2.exports = st.exports ∧
      (outputList cs v st).2.events = st.events := by
  induction cs generalizing st with
  | nil => exact ⟨rfl, rfl⟩
  | cons c rest ih =>
    have hf := outputSingle_frame c v st
    unfold outputList
    rcases hos : outputSingle c v st with ⟨r, st2⟩
    rw [hos] at hf
    cases r with
    | error e =>
      exact hf
    | ok u =>
      exact ⟨((ih st2).1).trans hf.1, ((ih st2).2).trans hf.2⟩

theorem output_frame (ch : ChanArg) (v : Bool) (st : GPIOState) :
    (output ch v st).2.exports = st.exports ∧
      (output ch v st).2.events = st.events := by
  cases ch with
  | single c => exact outputSingle_frame c v st
  | chanList cs => exact outputList_frame cs v st

theorem add_event_callback_frame (c : Nat) (st : GPIOState) :
    (add_event_callback c st).2.exports = st.exports ∧
      (add_event_callback c st).2.events = st.events := by
  unfold add_event_callback
  split
  · exact ⟨rfl, rfl⟩
  · split <;> exact ⟨rfl, rfl⟩

theorem wait_frame (c : Nat) (t : Trigger) (tmo : Int) (i : Bool)
    (steps : List (Bool × Int)) (st : GPIOState) (r : Except GPIOError Nat)
    (st2 : GPIOState) (h : wait_for_edge c t tmo i steps st = some (r, st2)) :
    st2.exports = st.exports ∧ st2.events = st.events := by
  unfold wait_for_edge at h
  rcases hc : check_configured c (some Direction.IN) st with e | u
  · rw [hc] at h
    simp only [Option.some.injEq, Prod.mk.injEq] at h
    rw [← h.2]
    exact ⟨rfl, rfl⟩
  · rw [hc] at h
    by_cases ht : t = .NONE
    · rw [if_pos ht] at h
      simp only [Option.some.injEq, Prod.mk.injEq] at h
      rw [← h.2]
      exact ⟨rfl, rfl⟩
    · rw [if_neg ht] at h
      by_cases hev : (dget st.events c).isSome
      · rw [if_pos hev] at h
        simp only [Option.some.injEq, Prod.mk.injEq] at h
        rw [← h.2]
        exact ⟨rfl, rfl⟩
      · rw [if_neg hev] at h
        rcases hr : runLoop t tmo ⟨i, false, false⟩ steps with _ | s
        · rw [hr] at h
          simp at h
        · rw [hr] at h
          simp only [Option.some.injEq, Prod.mk.injEq] at h
          rw [← h.2]
          exact ⟨rfl, rfl⟩

theorem evInv_setmode (m : Nat) (ok : Bool) (st : GPIOState) (h : EvInv st) :
    EvInv (setmode m ok st).2 :=
  evInv_of_eq st (setmode m ok st).2 (setmode_frame m ok st).1
    (setmode_frame m ok st).2 h

theorem evInv_setwarnings (e : Bool) (st : GPIOState) (h : EvInv st) :
    EvInv (setwarnings e st) :=
  evInv_of_eq st (setwarnings e st) rfl rfl h

theorem evInv_setupSingle (c : Nat) (d : Direction) (i : Option Bool)
    (st : GPIOState) (h : EvInv st) : EvInv (setupSingle c d i st).2 := by
  unfold setupSingle
  split_ifs with h1 h2 h3
  · exact h
  · exact h
  all_goals {
    constructor
    · intro c2 t hev
      have hne : c2 ≠ c := by
        intro he
        subst he
        have hin := h.1 c2 t hev
        rw [hin] at h2
        exact h2 rfl
      rw [dget_dinsert_ne st.exports c c2 d hne]
      exact h.1 c2 t hev
    · exact h.2 }

theorem evInv_setupList (cs : List Nat) (d : Direction) (i : Option Bool)
    (st : GPIOState) (h : EvInv st) : EvInv (setupList cs d i st).2 := by
  induction cs generalizing st with
  | nil => exact h
  | cons c rest ih =>
    have hs := evInv_setupSingle c d i st h
    unfold setupList
    rcases hos : setupSingle c d i st with ⟨r, st2⟩
    rw [hos] at hs
    cases r with
    | error e => exact hs
    | ok u => exact ih st2 hs

theorem evInv_setup (ch : ChanArg) (d : Direction) (i : Option Bool)
    (st : GPIOState) (h : EvInv st) : EvInv (setup ch d i st).2 := by
  unfold setup
  split_ifs with h1
  · exact h
  · cases ch with
    | single c => exact evInv_setupSingle c d i st h
    | chanList cs =>
      have hs := evInv_setupList cs d i st h
      dsimp only
      rcases hos : setupList cs d i st with ⟨r, st2⟩
      rw [hos] at hs
      cases r with
      | error e => exact hs
      | ok u => exact hs

theorem evInv_input (c : Nat) (st : GPIOState) (h : EvInv st) :
    EvInv (input c st).2 := by
  rw [input_state_eq c st]
  exact h

theorem evInv_output (ch : ChanArg) (v : Bool) (st : GPIOState) (h : EvInv st) :
    EvInv (output ch v st).2 :=
  evInv_of_eq st (output ch v st).2 (output_frame ch v st).1
    (output_frame ch v st).2 h

theorem evInv_add_event_detect (c : Nat) (t : Trigger) (cb : Bool)
    (st : GPIOState) (h : EvInv st) : EvInv (add_event_detect c t cb st).2 := by
  unfold add_event_detect
  rcases hc : check_configured c (some Direction.IN) st with e | u
  · exact h
  · have hin : dget st.exports c = some Direction.IN := by
      apply check_ok_some
      rw [hc]
    split_ifs with h1 h2 h3
    · exact h
    · exact h
    all_goals {
      constructor
      · intro c2 t2 hev
        by_cases hcc : c2 = c
        · subst hcc
          exact hin
        · rw [dget_dinsert_ne st.events c c2 t hcc] at hev
          exact h.1 c2 t2 hev
      · exact nodup_dkeys_dinsert st.events c t h.2 }

theorem evInv_remove_event_detect (c : Nat) (st : GPIOState) (h : EvInv st) :
    EvInv (remove_event_detect c st).2 := by
  unfold remove_event_detect
  rcases hc : check_configured c (some Direction.IN) st with e | u
  · exact h
  · split_ifs with h1
    · constructor
      · intro c2 t2 hev
        by_cases hcc : c2 = c
        · subst hcc
          rw [dget_derase_self st.events c2 h.2] at hev
          exact absurd hev (by simp)
        · rw [dget_derase_ne st.events c c2 hcc] at hev
          exact h.1 c2 t2 hev
      · exact nodup_dkeys_derase st.events c h.2
    · exact h

theorem evInv_add_event_callback (c : Nat) (st : GPIOState) (h : EvInv st) :
    EvInv (add_event_callback c st).2 :=
  evInv_of_eq st (add_event_callback c st).2 (add_event_callback_frame c st).1
    (add_event_callback_frame c st).2 h

theorem evInv_event_detected (c : Nat) (st : GPIOState) (h : EvInv st) :
    EvInv (event_detected c st).2 := by
  rw [event_detected_state_eq c st]
  exact h

theorem evInv_cleanupSingle (c : Nat) (st : GPIOState) (h : EvInv st) :
    EvInv (cleanupSingle c st).2 := by
  unfold cleanupSingle
  rcases hc : check_configured c none st with e | u
  · exact h
  · split_ifs with h1
    · constructor
      · intro c2 t2 hev
        by_cases hcc : c2 = c
        · subst hcc
          rw [dget_derase_self st.events c2 h.2] at hev
          exact absurd hev (by simp)
        · rw [dget_derase_ne st.events c c2 hcc] at hev
          rw [dget_derase_ne st.exports c c2 hcc]
          exact h.1 c2 t2 hev
      · exact nodup_dkeys_derase st.events c h.2
    · constructor
      · intro c2 t2 hev
        by_cases hcc : c2 = c
        · subst hcc
          rw [hev] at h1
          exact absurd rfl h1
        · rw [dget_derase_ne st.exports c c2 hcc]
          exact h.1 c2 t2 hev
      · exact h.2

theorem evInv_cleanupList (cs : List Nat) (st : GPIOState) (h : EvInv st) :
    EvInv (cleanupList cs st).2 := by
  induction cs generalizing st with
  | nil => exact h
  | cons c rest ih =>
    have hs := evInv_cleanupSingle c st h
    unfold cleanupList
    rcases hos : cleanupSingle c st with ⟨r, st2⟩
    rw [hos] at hs
    cases r with
    | error e => exact hs
    | ok u => exact ih st2 hs

theorem evInv_cleanupAll (st : GPIOState) (h : EvInv st) :
    EvInv (cleanupAll st).2 := by
  unfold cleanupAll
  have hs := evInv_cleanupList (dkeys st.exports) st h
  rcases hos : cleanupList (dkeys st.exports) st with ⟨r, st2⟩
  rw [hos] at hs
  cases r with
  | error e => exact hs
  | ok u => exact evInv_of_eq st2 _ rfl rfl hs

theorem evInv_cleanup (ch : Option ChanArg) (st : GPIOState) (h : EvInv st) :
    EvInv (cleanup ch st).2 := by
  cases ch with
  | none => exact evInv_cleanupAll st h
  | some ca =>
    cases ca with
    | single c => exact evInv_cleanupSingle c st h
    | chanList cs => exact evInv_cleanupList cs st h

theorem evInv_initial : EvInv initialState := by
  constructor
  · intro c t hev
    simp [initialState, dget] at hev
  · simp [initialState, dkeys]

theorem evInv_reachable (st : GPIOState) (h : Reachable st) : EvInv st := by
  induction h with
  | init => exact evInv_initial
  | step_setmode st m ok hr ih => exact evInv_setmode m ok st ih
  | step_setwarnings st e hr ih => exact evInv_setwarnings e st ih
  | step_setup st ch d i hr ih => exact evInv_setup ch d i st ih
  | step_input st c hr ih => exact evInv_input c st ih
  | step_output st ch v hr ih => exact evInv_output ch v st ih
  | step_wait st c t tmo i steps res hr hw ih =>
    rcases res with ⟨r, st2⟩
    have hf := wait_frame c t tmo i steps st r st2 hw
    exact evInv_of_eq st st2 hf.1 hf.2 ih
  | step_add_event_detect st c t cb hr ih => exact evInv_add_event_detect c t cb st ih
  | step_remove_event_detect st c hr ih => exact evInv_remove_event_detect c st ih
  | step_add_event_callback st c hr ih => exact evInv_add_event_callback c st ih
  | step_event_detected st c hr ih => exact evInv_event_detected c st ih
  | step_cleanup st ch hr ih => exact evInv_cleanup ch st ih

/-- C1: evaluation of the failing scenario.  In an active session,
setup([5,6,7], OUT) does apply the per-channel setup to 5, 6 and 7 in
order (all three end configured as OUT and a subsequent
output([5,6,7], HIGH) drives all three without error), but the call itself
does not complete without error: the assignment on line 101 sits outside
the else branch, so the list itself is used as a dict key and the call
raises TypeError. -/
theorem setup_list_type_error_c1 :
    (setup (ChanArg.chanList [5, 6, 7]) Direction.OUT none sessionSt).1 =
        .error GPIOError.typeError ∧
      dget (setup (ChanArg.chanList [5, 6, 7]) Direction.OUT none sessionSt).2.exports 5 =
        some Direction.OUT ∧
      dget (setup (ChanArg.chanList [5, 6, 7]) Direction.OUT none sessionSt).2.exports 6 =
        some Direction.OUT ∧
      dget (setup (ChanArg.chanList [5, 6, 7]) Direction.OUT none sessionSt).2.exports 7 =
        some Direction.OUT ∧
      (output (ChanArg.chanList [5, 6, 7]) true
          (setup (ChanArg.chanList [5, 6, 7]) Direction.OUT none sessionSt).2).1 =
        .ok () ∧
      dget (output (ChanArg.chanList [5, 6, 7]) true
          (setup (ChanArg.chanList [5, 6, 7]) Direction.OUT none sessionSt).2).2.board.pins 5 =
        some true ∧
      dget (output (ChanArg.chanList [5, 6, 7]) true
          (setup (ChanArg.chanList [5, 6, 7]) Direction.OUT none sessionSt).2).2.board.pins 6 =
        some true ∧
      dget (output (ChanArg.chanList [5, 6, 7]) true
          (setup (ChanArg.chanList [5, 6, 7]) Direction.OUT none sessionSt).2).2.board.pins 7 =
        some true :=
  ⟨rfl, rfl, rfl, rfl, rfl, rfl, rfl, rfl⟩

/-- C2 counterexample: cleanup([1,2]) in a state where channel 2 is
configured and channel 1 is not raises at element 1 and stops: element 2 is
never processed through the single-channel path, its configuration entry
survives the call.  This refutes the claim that every element of the list
is still processed when one is missing. -/
theorem cleanup_list_missing_channel_cex :
    cleanupList [1, 2] stOUT2 = (.error GPIOError.channelNotConfigured, stOUT2) ∧
      dget (cleanupList [1, 2] stOUT2).2.exports 2 = some Direction.OUT :=
  ⟨rfl, rfl⟩

/-- C2 amended: list cleanup applies the single-channel path in order but
stops at the first failure: when the head element has no configuration
entry, the error propagates immediately and the state is left untouched,
so the remaining elements are not processed. -/
theorem cleanup_list_stops_at_first_missing (st : GPIOState) (c : Nat)
    (rest : List Nat) (h : dget st.exports c = none) :
    cleanupList (c :: rest) st = (.error GPIOError.channelNotConfigured, st) := by
  have hcs : cleanupSingle c st = (.error GPIOError.channelNotConfigured, st) := by
    unfold cleanupSingle check_configured
    rw [h]
  unfold cleanupList
  rw [hcs]

/-- C2 witness: applying the amended statement to the concrete state with
only channel 2 configured. -/
theorem cleanup_list_stops_witness :
    cleanupList [1, 2] stOUT2 = (.error GPIOError.channelNotConfigured, stOUT2) :=
  cleanup_list_stops_at_first_missing stOUT2 1 [2] rfl

/-- C3 counterexample: event_detected(1) in the import-time state (channel 1
not configured) raises ChannelNotConfigured, not NotSupported, so
NotSupported is not the outcome of every call to event_detected. -/
theorem event_detected_unconfigured_cex :
    event_detected 1 initialState = (.error GPIOError.channelNotConfigured, initialState) ∧
      GPIOError.channelNotConfigured ≠ GPIOError.notImplementedError :=
  ⟨rfl, by decide⟩

/-- C3 amended: for every channel holding an IN configuration entry,
event_detected signals NotSupported (NotImplementedError) and leaves the
state unchanged; for other channels the configuration check raises first. -/
theorem event_detected_not_supported (st : GPIOState) (c : Nat)
    (h : dget st.exports c = some Direction.IN) :
    event_detected c st = (.error GPIOError.notImplementedError, st) := by
  have hchk : check_configured c (some Direction.IN) st = .ok () :=
    check_some_ok c Direction.IN Direction.IN st h rfl
  unfold event_detected
  rw [hchk]

/-- C3 witness: the amended statement at the concrete state with channel 1
configured as IN. -/
theorem event_detected_not_supported_witness :
    event_detected 1 stIN = (.error GPIOError.notImplementedError, stIN) :=
  event_detected_not_supported stIN 1 rfl

/-- C4: in the polling loop with trigger RISING or FALLING, a sampled
change of level sets the value-exit flag if and only if the new level
equals the target boolean of the trigger (high for RISING, low for
FALLING); a change to the wrong polarity does not set it but advances the
baseline to the new level, so only a later transition landing exactly on
the requested polarity satisfies the wait. -/
theorem wait_loop_polarity (t : Trigger) (tmo e : Int) (s : LoopSt) (v : Bool)
    (ht : t = Trigger.RISING ∨ t = Trigger.FALLING)
    (hch : v ≠ s.originalValue) :
    ((loopStep t tmo s v e).valueExit = true ↔ v = t.target) ∧
      (v ≠ t.target →
        (loopStep t tmo s v e).valueExit = false ∧
          (loopStep t tmo s v e).originalValue = v) := by
  obtain ⟨ov, ve, te⟩ := s
  by_cases htm : tmo > 0 <;>
    rcases ht with rfl | rfl <;>
      cases v <;> cases ov <;>
        simp_all [loopStep, Trigger.target, apply_ite LoopSt.valueExit,
          apply_ite LoopSt.originalValue]

/-- C4 witness: the polarity rule applied at a concrete loop iteration: a
low-to-high change with trigger RISING. -/
theorem wait_loop_polarity_witness :
    ((loopStep Trigger.RISING (-1) ⟨false, false, false⟩ true 0).valueExit = true ↔
        true = Trigger.target Trigger.RISING) ∧
      (true ≠ Trigger.target Trigger.RISING →
        (loopStep Trigger.RISING (-1) ⟨false, false, false⟩ true 0).valueExit = false ∧
          (loopStep Trigger.RISING (-1) ⟨false, false, false⟩ true 0).originalValue = true) :=
  wait_loop_polarity Trigger.RISING (-1) 0 ⟨false, false, false⟩ true
    (Or.inl rfl) (by decide)

/-- C5: every terminating run of wait_for_edge that reaches the loop exit,
whether through a qualifying transition or through the timeout, disarms
the edge flag of the channel (sets it to NONE) and returns the channel
identifier. -/
theorem wait_disarms_edge_and_returns_channel (c : Nat) (t : Trigger)
    (tmo : Int) (i : Bool) (steps : List (Bool × Int)) (st : GPIOState)
    (r : Nat) (st2 : GPIOState)
    (h : wait_for_edge c t tmo i steps st = some (.ok r, st2)) :
    r = c ∧ dget st2.board.edges c = some Trigger.NONE := by
  unfold wait_for_edge at h
  rcases hc : check_configured c (some Direction.IN) st with e | u
  · rw [hc] at h
    simp at h
  · rw [hc] at h
    by_cases ht : t = .NONE
    · rw [if_pos ht] at h
      simp at h
    · rw [if_neg ht] at h
      by_cases hev : (dget st.events c).isSome
      · rw [if_pos hev] at h
        simp at h
      · rw [if_neg hev] at h
        rcases hr : runLoop t tmo ⟨i, false, false⟩ steps with _ | s
        · rw [hr] at h
          simp at h
        · rw [hr] at h
          simp only [Option.some.injEq, Prod.mk.injEq, Except.ok.injEq] at h
          constructor
          · exact h.1.symm
          · rw [← h.2]
            exact dget_dinsert_self (dinsert st.board.edges c t) c Trigger.NONE

/-- C5 witness: a concrete completed wait on channel 1 with trigger RISING
ends with the edge flag of channel 1 disarmed and returns 1. -/
theorem wait_disarms_edge_witness :
    (1 : Nat) = 1 ∧ dget stINafter.board.edges 1 = some Trigger.NONE :=
  wait_disarms_edge_and_returns_channel 1 Trigger.RISING (-1) false
    [(true, 0)] stIN 1 stINafter (by rfl)

/-- C10: every call to wait_for_edge that returns, whether it failed a
precondition or ran the loop to completion, leaves the Channel Registry
and the Event Registry exactly as it found them. -/
theorem wait_preserves_registries (c : Nat) (t : Trigger) (tmo : Int)
    (i : Bool) (steps : List (Bool × Int)) (st : GPIOState)
    (r : Except GPIOError Nat) (st2 : GPIOState)
    (h : wait_for_edge c t tmo i steps st = some (r, st2)) :
    st2.exports = st.exports ∧ st2.events = st.events :=
  wait_frame c t tmo i steps st r st2 h

/-- C10 witness: the frame property at a concrete completed wait. -/
theorem wait_preserves_registries_witness :
    stINafter.exports = stIN.exports ∧ stINafter.events = stIN.events :=
  wait_preserves_registries 1 Trigger.RISING (-1) false [(true, 0)] stIN
    (.ok 1) stINafter (by rfl)

theorem reachable_sessionSt : Reachable sessionSt :=
  Reachable.step_setmode initialState BCM true Reachable.init

theorem reachable_st6a : Reachable st6a :=
  Reachable.step_setup sessionSt (ChanArg.single 1) Direction.IN none
    reachable_sessionSt

theorem reachable_st6b : Reachable st6b :=
  Reachable.step_add_event_detect st6a 1 Trigger.RISING false reachable_st6a

/-- C6 counterexample: in a reachable session where channel 1 is configured
IN and holds an event entry, the call wait_for_edge(1, NONE) does not fail
with EventConflict: the assert on the trigger fires first, so for the
trigger NONE the outcome is an AssertionError.  The claim as stated
quantifies over every trigger t and is therefore false. -/
theorem wait_none_trigger_cex :
    wait_for_edge 1 Trigger.NONE (-1) false [] st6b =
        some (.error GPIOError.assertionError, st6b) ∧
      GPIOError.assertionError ≠ GPIOError.eventConflict :=
  ⟨rfl, by decide⟩

/-- C6 amended: for every channel holding an event entry in a reachable
state, and every trigger other than NONE (the triggers RISING, FALLING and
BOTH accepted by the assert), both wait_for_edge and add_event_detect fail
with EventConflict; in particular add_event_detect(c, RISING) followed by
wait_for_edge(c, FALLING) fails with EventConflict. -/
theorem edge_watch_mutual_exclusion (st : GPIOState) (c : Nat) (tr t : Trigger)
    (tmo : Int) (i : Bool) (steps : List (Bool × Int)) (cb : Bool)
    (hr : Reachable st) (hev : dget st.events c = some tr)
    (ht : t ≠ Trigger.NONE) :
    wait_for_edge c t tmo i steps st = some (.error GPIOError.eventConflict, st) ∧
      (add_event_detect c t cb st).1 = .error GPIOError.eventConflict := by
  have hin : dget st.exports c = some Direction.IN :=
    (evInv_reachable st hr).1 c tr hev
  have hchk : check_configured c (some Direction.IN) st = .ok () :=
    check_some_ok c Direction.IN Direction.IN st hin rfl
  constructor
  · unfold wait_for_edge
    rw [hchk, if_neg ht, hev]
    rfl
  · unfold add_event_detect
    rw [hchk, if_neg ht, hev]
    rfl

/-- C6 witness: the amended statement at the concrete reachable state where
add_event_detect(1, RISING) has been performed, with the subsequent calls
using trigger FALLING. -/
theorem edge_watch_mutual_exclusion_witness :
    wait_for_edge 1 Trigger.FALLING (-1) false [] st6b =
        some (.error GPIOError.eventConflict, st6b) ∧
      (add_event_detect 1 Trigger.FALLING false st6b).1 =
        .error GPIOError.eventConflict :=
  edge_watch_mutual_exclusion st6b 1 Trigger.RISING Trigger.FALLING (-1)
    false [] false reachable_st6b (by rfl) (by decide)

/-- C7: in every state reachable through the public operations, an event
entry exists only for a channel holding an IN configuration entry, and
the event registry holds at most one entry per channel. -/
theorem reachable_registry_invariant (st : GPIOState) (hr : Reachable st) :
    (∀ c t, dget st.events c = some t → dget st.exports c = some Direction.IN) ∧
      (dkeys st.events).Nodup :=
  evInv_reachable st hr

/-- C7 witness: the invariant read off at the concrete reachable state
where channel 1 is configured IN and carries an event entry. -/
theorem reachable_registry_invariant_witness :
    dget st6b.exports 1 = some Direction.IN ∧ (dkeys st6b.events).Nodup :=
  ⟨(reachable_registry_invariant st6b reachable_st6b).1 1 Trigger.RISING (by rfl),
    (reachable_registry_invariant st6b reachable_st6b).2⟩

/-- C8: for every channel configured IN with no event entry, the sequence
add_event_detect(c, BOTH); remove_event_detect(c); add_event_detect(c,
RISING) succeeds at every step: remove_event_detect fully releases the
event entry, so the second add_event_detect meets no residual conflict. -/
theorem event_detect_round_trip (st : GPIOState) (c : Nat)
    (hin : dget st.exports c = some Direction.IN)
    (hev : dget st.events c = none) :
    (add_event_detect c Trigger.BOTH false st).1 = .ok () ∧
      (remove_event_detect c (add_event_detect c Trigger.BOTH false st).2).1 = .ok () ∧
      (add_event_detect c Trigger.RISING false
        (remove_event_detect c (add_event_detect c Trigger.BOTH false st).2).2).1 = .ok () := by
  have hchk : check_configured c (some Direction.IN) st = .ok () :=
    check_some_ok c Direction.IN Direction.IN st hin rfl
  have h1 : add_event_detect c Trigger.BOTH false st =
      (.ok (), { st with events := dinsert st.events c Trigger.BOTH }) := by
    unfold add_event_detect
    rw [hchk, hev]
    rfl
  rw [h1]
  have hin1 : dget ({ st with events := dinsert st.events c Trigger.BOTH } :
      GPIOState).exports c = some Direction.IN := hin
  have hchk1 : check_configured c (some Direction.IN)
      { st with events := dinsert st.events c Trigger.BOTH } = .ok () :=
    check_some_ok c Direction.IN Direction.IN _ hin1 rfl
  have hev1 : dget ({ st with events := dinsert st.events c Trigger.BOTH } :
      GPIOState).events c = some Trigger.BOTH :=
    dget_dinsert_self st.events c Trigger.BOTH
  have h2 : remove_event_detect c { st with events := dinsert st.events c Trigger.BOTH } =
      (.ok (), { st with events := derase (dinsert st.events c Trigger.BOTH) c,
                         board := st.board.unregisterCallback c }) := by
    unfold remove_event_detect
    rw [hchk1, hev1]
    rfl
  rw [h2]
  have herase : derase (dinsert st.events c Trigger.BOTH) c = st.events :=
    derase_dinsert_of_none st.events c Trigger.BOTH hev
  have hchk2 : check_configured c (some Direction.IN)
      { st with events := derase (dinsert st.events c Trigger.BOTH) c,
                board := st.board.unregisterCallback c } = .ok () :=
    check_some_ok c Direction.IN Direction.IN _ hin rfl
  have hev2 : dget ({ st with events := derase (dinsert st.events c Trigger.BOTH) c,
                              board := st.board.unregisterCallback c } :
      GPIOState).events c = none := by
    show dget (derase (dinsert st.events c Trigger.BOTH) c) c = none
    rw [herase]
    exact hev
  have h3 : (add_event_detect c Trigger.RISING false
      { st with events := derase (dinsert st.events c Trigger.BOTH) c,
                board := st.board.unregisterCallback c }).1 = .ok () := by
    unfold add_event_detect
    rw [hchk2, hev2]
    rfl
  exact ⟨rfl, rfl, h3⟩

/-- C8 witness: the round trip at the concrete state with channel 1
configured as IN and no event entry. -/
theorem event_detect_round_trip_witness :
    (add_event_detect 1 Trigger.BOTH false stIN).1 = .ok () ∧
      (remove_event_detect 1 (add_event_detect 1 Trigger.BOTH false stIN).2).1 = .ok () ∧
      (add_event_detect 1 Trigger.RISING false
        (remove_event_detect 1 (add_event_detect 1 Trigger.BOTH false stIN).2).2).1 = .ok () :=
  event_detect_round_trip stIN 1 (by rfl) (by rfl)

/-- C9: input(c) fails with ChannelNotConfigured exactly when no
configuration entry exists for c, and can fail with no other error; and
reading a channel configured OUT succeeds and returns the last level
driven by output. -/
theorem input_fails_iff_unconfigured (st : GPIOState) (c : Nat) :
    ((input c st).1 = .error GPIOError.channelNotConfigured ↔
        dget st.exports c = none) ∧
      (∀ e, (input c st).1 = .error e → e = GPIOError.channelNotConfigured) ∧
      (∀ v, dget st.exports c = some Direction.OUT →
        (output (ChanArg.single c) v st).1 = .ok () ∧
        (input c (output (ChanArg.single c) v st).2).1 = .ok v) := by
  rcases hc : dget st.exports c with _ | cfg
  · have hchk : check_configured c none st = .error GPIOError.channelNotConfigured := by
      unfold check_configured
      rw [hc]
    have hin : input c st = (.error GPIOError.channelNotConfigured, st) := by
      unfold input
      rw [hchk]
    refine ⟨by rw [hin]; simp, ?_, ?_⟩
    · intro e he
      rw [hin] at he
      injection he with he2
      exact he2.symm
    · intro v hv
      exact Option.noConfusion hv
  · have hchk : check_configured c none st = .ok () := check_none_ok c cfg st hc
    have hin : input c st = (.ok (st.board.readPin c), st) := by
      unfold input
      rw [hchk]
    refine ⟨?_, ?_, ?_⟩
    · rw [hin]
      constructor
      · intro he
        exact Except.noConfusion he
      · intro hnone
        exact Option.noConfusion hnone
    · intro e he
      rw [hin] at he
      exact Except.noConfusion he
    · intro v hv
      have hcfg : Direction.OUT = cfg := (Option.some.inj hv).symm
      have hchko : check_configured c (some Direction.OUT) st = .ok () :=
        check_some_ok c Direction.OUT cfg st hc hcfg
      have hout : output (ChanArg.single c) v st =
          (.ok (), { st with board := st.board.writePin c v }) := by
        show outputSingle c v st = _
        unfold outputSingle
        rw [hchko]
      rw [hout]
      refine ⟨rfl, ?_⟩
      have hchk2 : check_configured c none { st with board := st.board.writePin c v } = .ok () :=
        check_none_ok c cfg _ hc
      have hin2 : (input c { st with board := st.board.writePin c v }).1 =
          .ok (({ st with board := st.board.writePin c v } : GPIOState).board.readPin c) := by
        unfold input
        rw [hchk2]
      have hread : ({ st with board := st.board.writePin c v } :
          GPIOState).board.readPin c = v := by
        show ((st.board.writePin c v).readPin c) = v
        unfold Board.writePin Board.readPin
        show (dget (dinsert st.board.pins c v) c).getD false = v
        rw [dget_dinsert_self]
        rfl
      rw [hread] at hin2
      exact hin2

/-- C9 witness: the characterization at the concrete state with channel 2
configured as OUT, including the read-back of the driven level. -/
theorem input_fails_iff_unconfigured_witness :
    ((input 2 stOUT2).1 = .error GPIOError.channelNotConfigured ↔
        dget stOUT2.exports 2 = none) ∧
      (output (ChanArg.single 2) true stOUT2).1 = .ok () ∧
      (input 2 (output (ChanArg.single 2) true stOUT2).2).1 = .ok true :=
  ⟨(input_fails_iff_unconfigured stOUT2 2).1,
    ((input_fails_iff_unconfigured stOUT2 2).2.2 true (by rfl)).1,
    ((input_fails_iff_unconfigured stOUT2 2).2.2 true (by rfl)).2⟩
